import Mathlib

/-!
Verification of the orchestration core of the solarys fraud-detection demo:
the bounded agentic loop of the two agents (`src/agents/src/fraud-detection/agent.ts`,
`src/agents/src/claims-investigation/agent.ts`), the A2A delegation client
(`shared/a2a-client.ts`), the client-side stream decoder
(`src/apps/web/src/components/chat/Chat.tsx`) and the process-wide audit log
(`src/packages/tools/src/lib/auditLog.ts`).

Conventions of the embedding:
* JSON payloads are modelled by `JObj`, a record of optional fields covering every
  key the code under study inspects, plus `extra` for the names of any other keys
  (their values are never inspected by the code, only key presence matters).
* Machine time (`Date.now()` deltas), UUIDs and ISO timestamps are abstracted:
  durations are supplied by an environment oracle, UUID/timestamp fields are not
  modelled because no branch of the code reads them back.
* `throw`/`catch` of the TypeScript is modelled with `Except String`; a total Lean
  function returning a plain value models code that cannot throw.
* External collaborators (the Claude/Gemini backends, the REST tool API reached by
  the shared `callTool`, the peer A2A stream) are oracles quantified over in the
  theorems, exactly as the spec declares them external (§1, §6).
-/

/-- A JSON object as inspected by the code under study: one optional slot per key
that any branch reads, plus the names of any remaining keys (needed for the
`Object.keys(parsed).length === 0` check and for verbatim forwarding). -/
structure JObj where
  type? : Option String := none
  agent? : Option String := none
  vendor? : Option String := none
  status? : Option String := none
  tool? : Option String := none
  fromAgent? : Option String := none
  toAgent? : Option String := none
  text? : Option String := none
  taskId? : Option String := none
  message? : Option String := none
  duration? : Option Nat := none
  success? : Option Bool := none
  extra : List String := []
deriving DecidableEq, Repr

/-- `Object.keys(parsed).length === 0`. -/
def JObj.isEmptyObj (j : JObj) : Bool :=
  j.type?.isNone && j.agent?.isNone && j.vendor?.isNone && j.status?.isNone &&
  j.tool?.isNone && j.fromAgent?.isNone && j.toAgent?.isNone && j.text?.isNone &&
  j.taskId?.isNone && j.message?.isNone && j.duration?.isNone && j.success?.isNone &&
  j.extra.isEmpty

/-- The payload `{type: "agent_active", agent, vendor, status}` built by the agents. -/
def agentActiveEv (agent vendor status : String) : JObj :=
  { type? := some "agent_active", agent? := some agent, vendor? := some vendor,
    status? := some status }

/-- The payload `{type: "mcp_tool", agent, tool, status: "start"}`. -/
def mcpToolStartEv (agent tool : String) : JObj :=
  { type? := some "mcp_tool", agent? := some agent, tool? := some tool,
    status? := some "start" }

/-- The payload `{type: "mcp_tool", agent, tool, status: "end", duration, success}`. -/
def mcpToolEndEv (agent tool : String) (duration : Nat) (success : Bool) : JObj :=
  { type? := some "mcp_tool", agent? := some agent, tool? := some tool,
    status? := some "end", duration? := some duration, success? := some success }

/-- The payload `{type: "a2a_delegation", from, to}`. -/
def delegationEv (src dst : String) : JObj :=
  { type? := some "a2a_delegation", fromAgent? := some src, toAgent? := some dst }

/-- The payload `{type: "thinking", agent, text}`. -/
def thinkingEv (agent text : String) : JObj :=
  { type? := some "thinking", agent? := some agent, text? := some text }

/-- One event published on an agent process's A2A `ExecutionEventBus`.
`structured j` is `publishStructuredEvent(eventBus, taskId, contextId, j)` (a
status-update in state `working`, `final: false`, whose message text is the JSON
serialization of `j`); `statusText` is a plain status-update carrying
human-readable text; `initialTask` is the initial `Task` publish. -/
inductive BusEv
  | initialTask
  | structured (j : JObj)
  | statusText (text : String) (final : Bool) (state : String)
deriving DecidableEq, Repr

/-! ### Audit log (`src/packages/tools/src/lib/auditLog.ts`)

The module-level mutable state (`auditLogs`, `logCounter`) is made explicit as
`AuditState`; `Date` timestamps and the `extractOutputSummary` helper (which only
formats the entry's summary string and inspects no state) are abstracted: the
summary is taken as a provided string, since no claim and no other code branch
depends on its content. -/

namespace AuditLog

/-- `AuditLogEntry` (timestamp omitted: never read back by any code under study). -/
structure AuditLogEntry where
  id : String
  tool : String
  input : String
  outputSummary : String
  durationMs : Nat
  success : Bool
deriving DecidableEq, Repr

/-- The module-level state: the entries array and the id counter. -/
structure AuditState where
  auditLogs : List AuditLogEntry
  logCounter : Nat
deriving DecidableEq, Repr

def MAX_LOG_ENTRIES : Nat := 1000

def initialState : AuditState := { auditLogs := [], logCounter := 0 }

/-- `String(logCounter).padStart(6, "0")`. -/
def padStart6 (s : String) : String :=
  String.mk (List.replicate (6 - s.length) (Char.ofNat 48)) ++ s

/-- `generateLogId` (called after `logCounter++`, so it receives the incremented
counter). -/
def generateLogId (counter : Nat) : String :=
  "LOG_" ++ padStart6 (toString counter)

/-- Arguments of one `logToolCall` invocation (the summary stands for
`extractOutputSummary(output)`). -/
structure LogCallArgs where
  tool : String
  input : String
  outputSummary : String
  durationMs : Nat
  success : Bool
deriving DecidableEq, Repr

/-- `logToolCall`: build the entry, `unshift` it, `pop` the oldest entry when the
capacity is exceeded; returns the entry and the updated state. -/
def logToolCall (st : AuditState) (a : LogCallArgs) : AuditLogEntry × AuditState :=
  let counter := st.logCounter + 1
  let entry : AuditLogEntry :=
    { id := generateLogId counter, tool := a.tool, input := a.input,
      outputSummary := a.outputSummary, durationMs := a.durationMs,
      success := a.success }
  let logs := entry :: st.auditLogs
  let logs := if logs.length > MAX_LOG_ENTRIES then logs.dropLast else logs
  (entry, { auditLogs := logs, logCounter := counter })

/-- `getRecentLogs(limit = 50)`: clamp the limit into `[1, 200]` and slice from the
front. JavaScript numbers may be negative, so the limit is an integer. -/
def getRecentLogs (st : AuditState) (limit : Int) : List AuditLogEntry :=
  let safeLimit := min (max 1 limit) 200
  st.auditLogs.take safeLimit.toNat

/-- Run a sequence of `logToolCall` invocations from a state. -/
def runLog (st : AuditState) (calls : List LogCallArgs) : AuditState :=
  calls.foldl (fun s a => (logToolCall s a).2) st

end AuditLog

/-! ### Client-side stream decoder (`src/apps/web/src/components/chat/Chat.tsx`)

The SSE `data:` payloads, after `JSON.parse`, go through the if/else chain of
`handleSend` (lines 119–200).  The React state updated by that chain is modelled
by `ChatState`; `crypto.randomUUID()` ids and `Date` timestamps are omitted (no
branch reads them back), `streamingContent` always mirrors the local
`currentContent` accumulator, which is the `current` field. -/

namespace Chat

/-- A client-visible tool-call record (`ToolCall` in `types.ts`; id/startTime
omitted as unread). -/
structure ToolCallRec where
  name : String
  agent : String
  status : String
  duration? : Option Nat
deriving DecidableEq, Repr

/-- The two agent statuses (`Record<AgentId, AgentState>`, keeping only the
`status` field that the decoder updates and reads). -/
structure AgentsSt where
  detection : String
  investigation : String
deriving DecidableEq, Repr

/-- `setAgents` with a computed key: the `AgentId` union restricts the key to the
two known agents. -/
def setAgent (a : AgentsSt) (id status : String) : AgentsSt :=
  if id == "detection" then { a with detection := status }
  else if id == "investigation" then { a with investigation := status }
  else a

/-- The decoder's reconstructed state: finalized assistant messages (their text),
tool-call records, delegation records (from, to), thinking entries (agent, text),
agent statuses and the running text buffer `currentContent`. -/
structure ChatState where
  messages : List String
  toolCalls : List ToolCallRec
  delegations : List (String × String)
  thoughts : List (String × String)
  agents : AgentsSt
  current : String
deriving DecidableEq, Repr

/-- `DEFAULT_AGENTS` statuses plus empty lists and an empty buffer. -/
def initialChatState : ChatState :=
  { messages := [], toolCalls := [], delegations := [], thoughts := [],
    agents := { detection := "idle", investigation := "idle" }, current := "" }

/-- `parsed.status === "working" ? ... : parsed.status === "completed" ? ... : "idle"`. -/
def statusOf (s : String) : String :=
  if s == "working" then "working" else if s == "completed" then "completed" else "idle"

/-- The field-presence classification chain applied to one parsed frame
(lines 119–200 of `Chat.tsx`), in source order; first match wins. -/
def handleFrame (st : ChatState) (j : JObj) : ChatState :=
  if j.agent?.isSome && j.vendor?.isSome && j.status?.isSome && !j.tool?.isSome then
    { st with agents := setAgent st.agents (j.agent?.getD "") (statusOf (j.status?.getD "")) }
  else if j.tool?.isSome && j.status?.isSome then
    let agentId := j.agent?.getD "detection"
    if j.status? == some "start" then
      { st with toolCalls := st.toolCalls ++
          [{ name := j.tool?.getD "", agent := agentId, status := "running", duration? := none }] }
    else if j.status? == some "end" then
      { st with toolCalls := st.toolCalls.map (fun t =>
          if t.name == j.tool?.getD "" && t.status == "running" && t.agent == agentId then
            { t with status := if j.success? == some true then "success" else "error",
                     duration? := j.duration? }
          else t) }
    else st
  else if j.fromAgent?.isSome && j.toAgent?.isSome then
    { st with delegations := st.delegations ++ [(j.fromAgent?.getD "", j.toAgent?.getD "")] }
  else if j.agent?.isSome && j.text?.isSome && !j.tool?.isSome then
    { st with thoughts := st.thoughts ++ [(j.agent?.getD "", j.text?.getD "")] }
  else if j.text?.isSome && !j.agent?.isSome then
    { st with current := st.current ++ j.text?.getD "" }
  else if j.taskId?.isSome || j.isEmptyObj then
    if st.current != "" then { st with messages := st.messages ++ [st.current] } else st
  else if j.message?.isSome then
    st
  else st

/-- `true` exactly when `handleFrame` reaches the Done branch: the payload has a
`taskId` or is an empty object, and matches none of the earlier rules. -/
def reachesDone (j : JObj) : Bool :=
  !(j.agent?.isSome && j.vendor?.isSome && j.status?.isSome && !j.tool?.isSome) &&
  !(j.tool?.isSome && j.status?.isSome) &&
  !(j.fromAgent?.isSome && j.toAgent?.isSome) &&
  !(j.agent?.isSome && j.text?.isSome && !j.tool?.isSome) &&
  !(j.text?.isSome && !j.agent?.isSome) &&
  (j.taskId?.isSome || j.isEmptyObj)

/-- Feed an ordered list of decoded frames through the decoder. -/
def decodeFrames (st : ChatState) (frames : List JObj) : ChatState :=
  frames.foldl handleFrame st

end Chat

/-! ### Delegation client (`src/agents/src/shared/a2a-client.ts`)

`callInvestigationAgentWithEvents` opens a streaming A2A call to the peer and
relays its updates.  The peer stream is an oracle: the list of updates delivered,
and—when the transport fails (`createFromUrl` or the `for await` throwing)—the
error message raised after those updates.  A text part of a peer message is its
literal string plus the result of `JSON.parse` on it when that yields an object
(`json?`). -/

namespace A2AClient

/-- One text part of an A2A message: the literal text and, when `JSON.parse`
succeeds and yields an object, that object. -/
structure TextPart where
  raw : String
  json? : Option JObj
deriving DecidableEq, Repr

/-- `textPart ? textPart.text : "No text in response"` (the inner option is the
presence of a text part in the message). -/
def extractFromParts : Option TextPart → String
  | some tp => tp.raw
  | none => "No text in response"

/-- A `Task | Message` result of the non-streaming `sendMessage`
(`status.message`'s text part when present, else the agent messages of the
history, already filtered to `role === "agent"`). -/
inductive A2AResult
  | task (statusMsg? : Option (Option TextPart)) (agentHistory : List (Option TextPart))
  | message (txt? : Option TextPart)
deriving DecidableEq, Repr

/-- `extractResponseText` of `a2a-client.ts`. -/
def extractResponseText : A2AResult → String
  | A2AResult.task (some tp?) _ => extractFromParts tp?
  | A2AResult.task none hist =>
      match hist.getLast? with
      | some tp? => extractFromParts tp?
      | none => "Investigation complete but no details available"
  | A2AResult.message tp? => extractFromParts tp?

/-- `callInvestigationAgent` (non-streaming): the peer call either returns a
result or throws, in which case the synthesized error string is returned. -/
def callInvestigationAgent (resp : Except String A2AResult) : String :=
  match resp with
  | Except.ok r => extractResponseText r
  | Except.error m => "Error delegating to Investigation Agent: " ++ m

/-- One update yielded by `client.sendMessageStream` on the peer connection.  For
`task`/`statusUpdate` the outer option is the presence of `status.message`, the
inner the presence of its text part. -/
inductive PeerEv
  | task (state : String) (statusMsg? : Option (Option TextPart))
  | statusUpdate (statusMsg? : Option (Option TextPart)) (final : Bool)
  | message (txt? : Option TextPart)
deriving DecidableEq, Repr

/-- The peer stream as delivered to the delegation client: the updates that
arrived, then—if the transport failed—the raised error message. -/
structure PeerStream where
  events : List PeerEv
  failure? : Option String
deriving DecidableEq, Repr

/-- The structured events forwarded into this process's bus for one peer update
(lines 156–180): a status-update whose message text parses to a JSON object with
a `type` key is re-published, with the `agent` field overwritten to
`investigation` when the type is `mcp_tool`. -/
def peerForward : PeerEv → List BusEv
  | PeerEv.statusUpdate (some (some tp)) _ =>
      match tp.json? with
      | some j =>
          if j.type?.isSome then
            [BusEv.structured
              (if j.type? == some "mcp_tool" then { j with agent? := some "investigation" } else j)]
          else []
      | none => []
  | _ => []

/-- The running `responseText` after one peer update (lines 148–196): a completed
task's status message, a final status-update's non-JSON text, or a direct
message's text. -/
def peerTextUpdate (acc : String) : PeerEv → String
  | PeerEv.task state statusMsg? =>
      match statusMsg? with
      | some tp? => if state == "completed" then extractFromParts tp? else acc
      | none => acc
  | PeerEv.statusUpdate statusMsg? final =>
      match statusMsg?, final with
      | some tp?, true =>
          let t := extractFromParts tp?
          if t != "" && !t.startsWith "\x7b" then t else acc
      | _, _ => acc
  | PeerEv.message tp? => extractFromParts tp?

/-- `callInvestigationAgentWithEvents`: the bus events it publishes, in order, and
the string it returns.  The `AgentActive{investigation, working}` event precedes
the call; all forwarded events follow; `AgentActive{investigation, completed}` is
published on both the success and the failure exit; on failure the synthesized
error string is returned (the function never throws). -/
def callInvestigationAgentWithEvents (stream : PeerStream) : List BusEv × String :=
  let fwd := stream.events.foldr (fun ev acc => peerForward ev ++ acc) []
  let txt := stream.events.foldl peerTextUpdate ""
  let evs := BusEv.structured (agentActiveEv "investigation" "google" "working") ::
    fwd ++ [BusEv.structured (agentActiveEv "investigation" "google" "completed")]
  match stream.failure? with
  | some m => (evs, "Error delegating to Investigation Agent: " ++ m)
  | none =>
      (evs, if txt != "" then txt else "Investigation complete but no details available")

end A2AClient

/-! ### Task executor segments

Within one reasoning round the requested tool calls run concurrently
(`Promise.all`); each call publishes its own events in program order, and events
of distinct calls may interleave arbitrarily (§5).  A run is therefore recorded
as a list of segments: sequential stretches, and parallel batches holding one
event block per tool call. -/

/-- A segment of an executor run. -/
inductive Seg
  | seq (evs : List BusEv)
  | par (blocks : List (List BusEv))
deriving DecidableEq, Repr

/-- The observable outcome of one `execute` run: the segments of bus events, the
final response text, and the iteration counter at exit. -/
structure ExecResult where
  segs : List Seg
  responseText : String
  iterations : Nat
deriving DecidableEq, Repr

def MAX_ITERATIONS : Nat := 10

/-! ### Fraud Detection agent (`fraud-detection/agent.ts`, `claude.ts`)

The Claude backend is an oracle with internal state `σ`: `sendMessage` /
`sendToolResults` either return the next reply or throw (`Except.error`), which
also covers the `ClaudeClient` constructor throwing on a missing API key.  The
REST tool layer (`shared/api-client.ts`, consumed through `callTool`) is the
spec's external ToolInvoker: it returns `{success, data?| error?}` or throws on
transport failure.  Tool arguments are abstracted to their serialized form (for
`delegate_investigation` the code reads only `args.request`). -/

namespace Detection

/-- A tool call requested by Claude (`{id, name, input}`; `input` abstracted to a
string). -/
structure ToolCallReq where
  id : String
  name : String
  input : String
deriving DecidableEq, Repr

/-- `ClaudeResponse`: `toolCalls?` is `undefined` (`none`) or the requested calls;
`ClaudeClient` itself only produces `none` or a non-empty list, but the executor
merely tests presence (JavaScript truthiness of the array). -/
structure ClaudeResponse where
  text : String
  toolCalls? : Option (List ToolCallReq)
  stopReason : String
deriving DecidableEq, Repr

/-- The value `executeToolCall` resolves with, as fed back to the backend:
`result.data` on tool success, `{error: ...}` on tool failure (returned by
`executeToolCall` or synthesized by the executor's per-call catch), or
`{investigation_report: ...}` for a delegation. -/
inductive ToolOutcome
  | data (payload : String)
  | errObj (message : String)
  | investigationReport (report : String)
deriving DecidableEq, Repr

/-- One element of the batch passed to `claude.sendToolResults`. -/
structure ToolResultMsg where
  toolUseId : String
  result : ToolOutcome
deriving DecidableEq, Repr

/-- The stateful Claude backend oracle. -/
structure ClaudeReasoner (σ : Type) where
  sendMessage : σ → String → Except String (ClaudeResponse × σ)
  sendToolResults : σ → List ToolResultMsg → Except String (ClaudeResponse × σ)

/-- `callTool`'s resolved value: `{success: true, data}` or `{success: false, error}`. -/
inductive CallToolRes
  | ok (data : String)
  | fail (error : String)
deriving DecidableEq, Repr

/-- The environment of one detection run: the REST tool layer (throwing on
transport failure), the peer stream served to any delegation, and the measured
`Date.now()` duration per tool name. -/
structure DetectionEnv where
  callTool : String → String → Except String CallToolRes
  peer : A2AClient.PeerStream
  dur : String → Nat

/-- The `toolMapping` table of `claude.ts` (`toolMapping[name] || name`). -/
def toolMapping (name : String) : String :=
  if name == "get_provider_details" then "investigate_provider" else name

/-- `executeToolCall` of `claude.ts` with an event bus: a delegation runs
`callInvestigationAgentWithEvents` (which never throws) and wraps its string as
`{investigation_report}`; any other tool goes through `callTool`, whose thrown
transport errors propagate. -/
def executeToolCall (env : DetectionEnv) (name args : String) :
    List BusEv × Except String ToolOutcome :=
  if name == "delegate_investigation" then
    let r := A2AClient.callInvestigationAgentWithEvents env.peer
    (r.1, Except.ok (ToolOutcome.investigationReport r.2))
  else
    match env.callTool (toolMapping name) args with
    | Except.error m => ([], Except.error m)
    | Except.ok (CallToolRes.ok d) => ([], Except.ok (ToolOutcome.data d))
    | Except.ok (CallToolRes.fail e) => ([], Except.ok (ToolOutcome.errObj e))

/-- One tool call of a batch (agent.ts lines 132–189): ToolCall{start}, the
delegation marker for `delegate_investigation`, the invocation's own events, then
ToolCall{end, duration, success}; a thrown invocation is caught and becomes the
`{error: message}` result. -/
def runToolCall (env : DetectionEnv) (tc : ToolCallReq) : List BusEv × ToolResultMsg :=
  let startEv := BusEv.structured (mcpToolStartEv "detection" tc.name)
  let delegEvs : List BusEv :=
    if tc.name == "delegate_investigation" then
      [BusEv.structured (delegationEv "detection" "investigation")]
    else []
  match executeToolCall env tc.name tc.input with
  | (subEvs, Except.ok r) =>
      (startEv :: delegEvs ++ subEvs ++
        [BusEv.structured (mcpToolEndEv "detection" tc.name (env.dur tc.name) true)],
       { toolUseId := tc.id, result := r })
  | (subEvs, Except.error m) =>
      (startEv :: delegEvs ++ subEvs ++
        [BusEv.structured (mcpToolEndEv "detection" tc.name (env.dur tc.name) false)],
       { toolUseId := tc.id, result := ToolOutcome.errObj m })

/-- The agentic `while` loop (lines 126–203).  `fuel` is
`MAX_ITERATIONS - iterations`, so the guard `iterations < MAX_ITERATIONS` is
`fuel > 0`; `iters` is the running `iterations` counter.  Returns the segments
produced, the final reply (or the thrown backend error), and the counter. -/
def loopD {σ : Type} (R : ClaudeReasoner σ) (env : DetectionEnv) :
    Nat → σ → ClaudeResponse → Nat → List Seg × Except String ClaudeResponse × Nat
  | 0, _, reply, iters => ([], Except.ok reply, iters)
  | fuel + 1, s, reply, iters =>
    match reply.toolCalls? with
    | none => ([], Except.ok reply, iters)
    | some tcs =>
      let pairs := tcs.map (runToolCall env)
      let blocks := pairs.map Prod.fst
      let results := pairs.map Prod.snd
      match R.sendToolResults s results with
      | Except.error m => ([Seg.par blocks], Except.error m, iters + 1)
      | Except.ok (r2, s2) =>
        let thinkEvs : List BusEv :=
          if r2.text != "" && r2.toolCalls?.isSome then
            [BusEv.structured (thinkingEv "detection" r2.text)]
          else []
        let rest := loopD R env fuel s2 r2 (iters + 1)
        (Seg.par blocks :: Seg.seq thinkEvs :: rest.1, rest.2)

/-- The terminal events of every exit path (lines 217–246):
AgentActive{detection, completed} then the final `completed` status-update. -/
def postEvs (responseText : String) : List BusEv :=
  [BusEv.structured (agentActiveEv "detection" "anthropic" "completed"),
   BusEv.statusText responseText true "completed"]

/-- `FraudDetectionAgent.execute`: initial Task (when new) and working events, the
initial message to Claude, the agentic loop, and the unconditional completion
events.  All backend errors are caught into `responseText = "Error: ..."`. -/
def execute {σ : Type} (R : ClaudeReasoner σ) (env : DetectionEnv)
    (existingTask : Bool) (query : String) (s₀ : σ) : ExecResult :=
  let pre : List BusEv :=
    (if existingTask then [] else [BusEv.initialTask]) ++
    [BusEv.structured (agentActiveEv "detection" "anthropic" "working"),
     BusEv.statusText "Analyzing for fraud patterns..." false "working"]
  match R.sendMessage s₀ query with
  | Except.error m =>
      { segs := [Seg.seq pre, Seg.seq (postEvs ("Error: " ++ m))],
        responseText := "Error: " ++ m, iterations := 0 }
  | Except.ok (r1, s1) =>
      let initThink : List BusEv :=
        if r1.text != "" && r1.toolCalls?.isSome then
          [BusEv.structured (thinkingEv "detection" r1.text)]
        else []
      let run := loopD R env MAX_ITERATIONS s1 r1 0
      let responseText :=
        match run.2.1 with
        | Except.ok r =>
            if r.text == "" then "Analysis complete. No additional details available." else r.text
        | Except.error m => "Error: " ++ m
      { segs := Seg.seq (pre ++ initThink) :: run.1 ++ [Seg.seq (postEvs responseText)],
        responseText := responseText, iterations := run.2.2 }

end Detection

/-! ### Claims Investigation agent (`claims-investigation/agent.ts`, `gemini.ts`) -/

namespace Investigation

/-- A Gemini function call (`{name, args}`; `args` abstracted to a string). -/
structure GToolCall where
  name : String
  args : String
deriving DecidableEq, Repr

/-- `GeminiResponse` (`thinking?` carries thought parts of thinking-enabled
models). -/
structure GeminiResponse where
  text : String
  thinking? : Option String
  toolCalls? : Option (List GToolCall)
  finishReason : String
deriving DecidableEq, Repr

/-- One element of the batch passed to `gemini.sendToolResults`. -/
structure GToolResult where
  name : String
  response : Detection.ToolOutcome
deriving DecidableEq, Repr

/-- The stateful Gemini backend oracle. -/
structure GeminiReasoner (σ : Type) where
  sendMessage : σ → String → Except String (GeminiResponse × σ)
  sendToolResults : σ → List GToolResult → Except String (GeminiResponse × σ)

/-- The environment of one investigation run: the REST tool layer and the
duration oracle (this agent has no delegation tool). -/
structure InvestigationEnv where
  callTool : String → String → Except String Detection.CallToolRes
  dur : String → Nat

/-- JavaScript `response.thinking || response.text` (an absent or empty
`thinking` falls back to `text`). -/
def orElseStr (a? : Option String) (b : String) : String :=
  match a? with
  | some a => if a != "" then a else b
  | none => b

/-- `executeToolCall` of `gemini.ts`: `callTool(name, args)` unmapped; a thrown
transport error propagates; `{success: false}` becomes the `{error}` object. -/
def executeToolCall (env : InvestigationEnv) (name args : String) :
    Except String Detection.ToolOutcome :=
  match env.callTool name args with
  | Except.error m => Except.error m
  | Except.ok (Detection.CallToolRes.ok d) => Except.ok (Detection.ToolOutcome.data d)
  | Except.ok (Detection.CallToolRes.fail e) => Except.ok (Detection.ToolOutcome.errObj e)

/-- One tool call of a batch (agent.ts lines 137–184): start event, invocation,
end event with duration and success; a throw is caught into `{error: message}`. -/
def runToolCall (env : InvestigationEnv) (tc : GToolCall) : List BusEv × GToolResult :=
  let startEv := BusEv.structured (mcpToolStartEv "investigation" tc.name)
  match executeToolCall env tc.name tc.args with
  | Except.ok r =>
      ([startEv, BusEv.structured (mcpToolEndEv "investigation" tc.name (env.dur tc.name) true)],
       { name := tc.name, response := r })
  | Except.error m =>
      ([startEv, BusEv.structured (mcpToolEndEv "investigation" tc.name (env.dur tc.name) false)],
       { name := tc.name, response := Detection.ToolOutcome.errObj m })

/-- The agentic `while` loop (lines 131–200); the guard additionally requires the
tool-call array to be non-empty (`response.toolCalls.length > 0`). -/
def loopI {σ : Type} (R : GeminiReasoner σ) (env : InvestigationEnv) :
    Nat → σ → GeminiResponse → Nat → List Seg × Except String GeminiResponse × Nat
  | 0, _, reply, iters => ([], Except.ok reply, iters)
  | fuel + 1, s, reply, iters =>
    match reply.toolCalls? with
    | none => ([], Except.ok reply, iters)
    | some tcs =>
      if tcs.isEmpty then ([], Except.ok reply, iters)
      else
        let pairs := tcs.map (runToolCall env)
        let blocks := pairs.map Prod.fst
        let results := pairs.map Prod.snd
        match R.sendToolResults s results with
        | Except.error m => ([Seg.par blocks], Except.error m, iters + 1)
        | Except.ok (r2, s2) =>
          let intermediate := orElseStr r2.thinking? r2.text
          let thinkEvs : List BusEv :=
            if intermediate != "" && (r2.toolCalls?.getD []).length > 0 &&
                r2.toolCalls?.isSome then
              [BusEv.structured (thinkingEv "investigation" intermediate)]
            else []
          let rest := loopI R env fuel s2 r2 (iters + 1)
          (Seg.par blocks :: Seg.seq thinkEvs :: rest.1, rest.2)

/-- The terminal events of every exit path (lines 214–243). -/
def postEvs (responseText : String) : List BusEv :=
  [BusEv.structured (agentActiveEv "investigation" "google" "completed"),
   BusEv.statusText responseText true "completed"]

/-- `ClaimsInvestigationAgent.execute`.  At `MAX_ITERATIONS` the partial-results
text is produced; otherwise the reply text or the generic fallback; backend
errors are caught into `"Investigation error: ..."`; the completion events are
published unconditionally. -/
def execute {σ : Type} (R : GeminiReasoner σ) (env : InvestigationEnv)
    (existingTask : Bool) (query : String) (s₀ : σ) : ExecResult :=
  let pre : List BusEv :=
    (if existingTask then [] else [BusEv.initialTask]) ++
    [BusEv.structured (agentActiveEv "investigation" "google" "working"),
     BusEv.statusText "Initiating investigation with Gemini AI..." false "working"]
  match R.sendMessage s₀ query with
  | Except.error m =>
      { segs := [Seg.seq pre, Seg.seq (postEvs ("Investigation error: " ++ m))],
        responseText := "Investigation error: " ++ m, iterations := 0 }
  | Except.ok (r1, s1) =>
      let thinkingContent := orElseStr r1.thinking? r1.text
      let initThink : List BusEv :=
        if thinkingContent != "" then
          [BusEv.structured (thinkingEv "investigation" thinkingContent)]
        else []
      let run := loopI R env MAX_ITERATIONS s1 r1 0
      let responseText :=
        match run.2.1 with
        | Except.ok r =>
            if run.2.2 ≥ MAX_ITERATIONS then
              "Investigation reached maximum iterations (10). Partial results:\n\n" ++ r.text
            else if r.text == "" then
              "Investigation complete. No additional findings to report."
            else r.text
        | Except.error m => "Investigation error: " ++ m
      { segs := Seg.seq (pre ++ initThink) :: run.1 ++ [Seg.seq (postEvs responseText)],
        responseText := responseText, iterations := run.2.2 }

end Investigation

/-! ### Possible event traces of a run

Within one `Promise.all` batch each tool call publishes its events in program
order while distinct calls interleave arbitrarily; a run's possible bus traces
are the segment-wise concatenations with any interleaving of each parallel
batch. -/

/-- `t` interleaves the blocks `bs`: repeatedly remove the head of any block. -/
inductive Interleaving : List (List BusEv) → List BusEv → Prop
  | done (bs : List (List BusEv)) (h : ∀ b ∈ bs, b = []) : Interleaving bs []
  | step (bs : List (List BusEv)) (i : Nat) (x : BusEv) (rest t : List BusEv) :
      bs.get? i = some (x :: rest) → Interleaving (bs.set i rest) t →
      Interleaving bs (x :: t)

/-- The traces one segment can produce. -/
def SegTrace : Seg → List BusEv → Prop
  | Seg.seq evs, t => t = evs
  | Seg.par bs, t => Interleaving bs t

/-- The traces a run's segment list can produce. -/
def IsTrace : List Seg → List BusEv → Prop
  | [], t => t = []
  | s :: rest, t => ∃ t1 t2, SegTrace s t1 ∧ IsTrace rest t2 ∧ t = t1 ++ t2

/-- The canonical trace: blocks of a batch taken in request order. -/
def canonicalSeg : Seg → List BusEv
  | Seg.seq evs => evs
  | Seg.par bs => bs.foldr (· ++ ·) []

/-- The canonical trace of a whole run. -/
def canonicalTrace (segs : List Seg) : List BusEv :=
  segs.foldr (fun s acc => canonicalSeg s ++ acc) []

/-- An event attributed to the investigation agent: a structured payload whose
`agent` field is `investigation`. -/
def isInvEv : BusEv → Bool
  | BusEv.structured j => j.agent? == some "investigation"
  | _ => false

/-- The `Delegation{from: detection, to: investigation}` event. -/
def isDelegEv : BusEv → Bool
  | BusEv.structured j =>
      j.type? == some "a2a_delegation" && j.fromAgent? == some "detection" &&
      j.toAgent? == some "investigation"
  | _ => false

/-- Every investigation-attributed event is preceded by a delegation event:
either the head is a (non-investigation) delegation event, which guards the whole
tail, or the head is not investigation-attributed and the tail is guarded. -/
def GuardedList : List BusEv → Prop
  | [] => True
  | e :: rest =>
      if isDelegEv e && !isInvEv e then True
      else isInvEv e = false ∧ GuardedList rest

/-- A segment all of whose traces are guarded blockwise. -/
def SegGuarded : Seg → Prop
  | Seg.seq evs => GuardedList evs
  | Seg.par bs => ∀ b ∈ bs, GuardedList b

/-! ### Concrete instances used to exercise the definitions

Backends, tool layers and peer streams instantiating the oracles at specific
behaviors (a backend that always requests another tool call, one that throws, a
tool layer whose transport fails, a peer that streams a thinking event, an
unreachable peer, a peer emitting an unknown event kind), plus the wire frames of
the spec's Scenario A. -/

def alwaysToolReply : Detection.ClaudeResponse :=
  { text := "", toolCalls? := some [{ id := "t1", name := "find_anomalies", input := "" }],
    stopReason := "tool_use" }

def alwaysToolReasoner : Detection.ClaudeReasoner Unit :=
  { sendMessage := fun _ _ => Except.ok (alwaysToolReply, ()),
    sendToolResults := fun _ _ => Except.ok (alwaysToolReply, ()) }

def alwaysToolGReply : Investigation.GeminiResponse :=
  { text := "", thinking? := none,
    toolCalls? := some [{ name := "explain_risk_score", args := "" }], finishReason := "STOP" }

def alwaysToolGemini : Investigation.GeminiReasoner Unit :=
  { sendMessage := fun _ _ => Except.ok (alwaysToolGReply, ()),
    sendToolResults := fun _ _ => Except.ok (alwaysToolGReply, ()) }

def emptyPeer : A2AClient.PeerStream := { events := [], failure? := none }

def okEnv : Detection.DetectionEnv :=
  { callTool := fun _ _ => Except.ok (Detection.CallToolRes.ok "result"), peer := emptyPeer,
    dur := fun _ => 5 }

def okInvEnv : Investigation.InvestigationEnv :=
  { callTool := fun _ _ => Except.ok (Detection.CallToolRes.ok "result"), dur := fun _ => 3 }

def errReasoner : Detection.ClaudeReasoner Unit :=
  { sendMessage := fun _ _ => Except.error "backend unreachable",
    sendToolResults := fun _ _ => Except.error "backend unreachable" }

def errGemini : Investigation.GeminiReasoner Unit :=
  { sendMessage := fun _ _ => Except.error "backend unreachable",
    sendToolResults := fun _ _ => Except.error "backend unreachable" }

def throwEnv : Detection.DetectionEnv :=
  { callTool := fun _ _ => Except.error "ECONNREFUSED", peer := emptyPeer, dur := fun _ => 12 }

def throwInvEnv : Investigation.InvestigationEnv :=
  { callTool := fun _ _ => Except.error "ECONNREFUSED", dur := fun _ => 9 }

def oneToolThenDone : Detection.ClaudeReasoner Unit :=
  { sendMessage := fun _ _ => Except.ok (alwaysToolReply, ()),
    sendToolResults := fun _ _ =>
      Except.ok ({ text := "analysis done", toolCalls? := none, stopReason := "end_turn" }, ()) }

def oneToolThenDoneG : Investigation.GeminiReasoner Unit :=
  { sendMessage := fun _ _ => Except.ok (alwaysToolGReply, ()),
    sendToolResults := fun _ _ =>
      Except.ok ({ text := "done", thinking? := none, toolCalls? := none,
                   finishReason := "STOP" }, ()) }

def failedPeer : A2AClient.PeerStream := { events := [], failure? := some "fetch failed" }

def failedPeerEnv : Detection.DetectionEnv :=
  { callTool := fun _ _ => Except.ok (Detection.CallToolRes.ok "result"), peer := failedPeer,
    dur := fun _ => 5 }

def delegateCall : Detection.ToolCallReq :=
  { id := "t1", name := "delegate_investigation", input := "Investigate provider PRV52019" }

def delegReasoner : Detection.ClaudeReasoner Unit :=
  { sendMessage := fun _ _ => Except.ok
      ({ text := "", toolCalls? := some [delegateCall], stopReason := "tool_use" }, ()),
    sendToolResults := fun _ _ => Except.ok
      ({ text := "final report", toolCalls? := none, stopReason := "end_turn" }, ()) }

def peerThinkTp : A2AClient.TextPart :=
  { raw := "x", json? := some (thinkingEv "investigation" "reviewing claims") }

def peerFinalTp : A2AClient.TextPart := { raw := "peer report", json? := none }

def workingPeer : A2AClient.PeerStream :=
  { events := [A2AClient.PeerEv.statusUpdate (some (some peerThinkTp)) false,
               A2AClient.PeerEv.statusUpdate (some (some peerFinalTp)) true],
    failure? := none }

def delegEnv : Detection.DetectionEnv :=
  { callTool := fun _ _ => Except.ok (Detection.CallToolRes.ok "result"), peer := workingPeer,
    dur := fun _ => 7 }

/-- The canonical trace of a run whose first reply delegates to the peer. -/
def c6Trace : List BusEv :=
  canonicalTrace (Detection.execute delegReasoner delegEnv true "find fraud" ()).segs

def bogusPayload : JObj := { type? := some "bogus_kind", agent? := some "someone" }

def bogusStream : A2AClient.PeerStream :=
  { events := [A2AClient.PeerEv.statusUpdate
      (some (some { raw := "y", json? := some bogusPayload })) false],
    failure? := none }

def frameAgentWorking : JObj :=
  { agent? := some "detection", vendor? := some "anthropic", status? := some "working" }

def frameToolStart : JObj :=
  { tool? := some "find_anomalies", agent? := some "detection", status? := some "start" }

def frameToolEnd : JObj :=
  { tool? := some "find_anomalies", agent? := some "detection", status? := some "end",
    duration? := some 120, success? := some true }

def frameText : JObj := { text? := some "3 anomalies found." }

def frameDone : JObj := {}

/-- A decoder state mid-stream: one running tool call, a thought, a delegation,
both agents working, a non-empty text buffer. -/
def c8Before : Chat.ChatState :=
  { messages := [],
    toolCalls := [{ name := "find_anomalies", agent := "detection", status := "running",
                    duration? := none }],
    delegations := [("detection", "investigation")],
    thoughts := [("detection", "hm")],
    agents := { detection := "working", investigation := "working" },
    current := "partial answer" }

/-- The hypothesis of the iteration-bound claim: every successful reply of the
Claude backend requests at least one tool call. -/
def alwaysRequestsToolsD {σ : Type} (R : Detection.ClaudeReasoner σ) : Prop :=
  (∀ s q r s2, R.sendMessage s q = Except.ok (r, s2) → ∃ l, r.toolCalls? = some l ∧ l ≠ []) ∧
  (∀ s rs r s2, R.sendToolResults s rs = Except.ok (r, s2) → ∃ l, r.toolCalls? = some l ∧ l ≠ [])

/-- The same hypothesis for the Gemini backend. -/
def alwaysRequestsToolsI {σ : Type} (R : Investigation.GeminiReasoner σ) : Prop :=
  (∀ s q r s2, R.sendMessage s q = Except.ok (r, s2) → ∃ l, r.toolCalls? = some l ∧ l ≠ []) ∧
  (∀ s rs r s2, R.sendToolResults s rs = Except.ok (r, s2) → ∃ l, r.toolCalls? = some l ∧ l ≠ [])

/-- An error event on the wire: a payload carrying a `message` field (the agents
never publish one). -/
def isErrorFrame : BusEv → Bool
  | BusEv.structured j => j.message?.isSome
  | _ => false

/-- A status-update whose task state is `failed`. -/
def isFailedStatus : BusEv → Bool
  | BusEv.statusText _ _ st => st == "failed"
  | _ => false

theorem interleaving_cons_nil {bs : List (List BusEv)} {t : List BusEv}
    (h : Interleaving bs t) : Interleaving ([] :: bs) t := by
  induction h with
  | done bs hb =>
      exact Interleaving.done _ (by
        intro b hbmem
        rcases List.mem_cons.mp hbmem with h1 | h1
        · exact h1
        · exact hb b h1)
  | step bs i x rest t hget _ ih =>
      exact Interleaving.step ([] :: bs) (i + 1) x rest t hget ih

theorem interleaving_cons_block {bs : List (List BusEv)} {t : List BusEv}
    (b : List BusEv) (h : Interleaving bs t) : Interleaving (b :: bs) (b ++ t) := by
  induction b with
  | nil => simpa using interleaving_cons_nil h
  | cons x xs ih =>
      exact Interleaving.step (((x :: xs)) :: bs) 0 x xs (xs ++ t) rfl ih

theorem interleaving_canonical (bs : List (List BusEv)) :
    Interleaving bs (bs.foldr (· ++ ·) []) := by
  induction bs with
  | nil => exact Interleaving.done [] (by intro b hb; cases hb)
  | cons b rest ih => exact interleaving_cons_block b ih

theorem canonicalTrace_isTrace (segs : List Seg) : IsTrace segs (canonicalTrace segs) := by
  induction segs with
  | nil => rfl
  | cons s rest ih =>
      refine ⟨canonicalSeg s, canonicalTrace rest, ?_, ih, rfl⟩
      cases s with
      | seq evs => rfl
      | par bs => exact interleaving_canonical bs

theorem guardedList_of_noInv {evs : List BusEv}
    (h : ∀ e ∈ evs, isInvEv e = false) : GuardedList evs := by
  induction evs with
  | nil => trivial
  | cons e rest ih =>
      show GuardedList (e :: rest)
      unfold GuardedList
      split
      · trivial
      · exact ⟨h e (List.mem_cons_self e rest), ih fun x hx => h x (List.mem_cons_of_mem e hx)⟩

theorem guardedList_append {l₁ l₂ : List BusEv}
    (h₁ : GuardedList l₁) (h₂ : GuardedList l₂) : GuardedList (l₁ ++ l₂) := by
  induction l₁ with
  | nil => simpa using h₂
  | cons e rest ih =>
      show GuardedList (e :: (rest ++ l₂))
      unfold GuardedList
      unfold GuardedList at h₁
      split
      · trivial
      · rename_i hcond
        rw [if_neg hcond] at h₁
        exact ⟨h₁.1, ih h₁.2⟩

theorem mem_of_mem_set {α : Type} {l : List α} {i : Nat} {a b : α}
    (h : b ∈ l.set i a) : b = a ∨ b ∈ l := by
  induction l generalizing i with
  | nil => simp at h
  | cons x xs ih =>
      cases i with
      | zero =>
          rcases List.mem_cons.mp h with h1 | h1
          · exact Or.inl h1
          · exact Or.inr (List.mem_cons_of_mem x h1)
      | succ n =>
          rcases List.mem_cons.mp h with h1 | h1
          · exact Or.inr (h1 ▸ List.mem_cons_self x xs)
          · rcases ih h1 with h2 | h2
            · exact Or.inl h2
            · exact Or.inr (List.mem_cons_of_mem x h2)

theorem interleaving_guarded {bs : List (List BusEv)} {t : List BusEv}
    (h : Interleaving bs t) (hb : ∀ b ∈ bs, GuardedList b) : GuardedList t := by
  induction h with
  | done bs h => trivial
  | step bs i x rest t hget hrec ih =>
      have hblock : GuardedList (x :: rest) := hb _ (List.get?_mem hget)
      show GuardedList (x :: t)
      unfold GuardedList
      split
      · trivial
      · rename_i hcond
        unfold GuardedList at hblock
        rw [if_neg hcond] at hblock
        refine ⟨hblock.1, ih ?_⟩
        intro b hbmem
        rcases mem_of_mem_set hbmem with h1 | h1
        · exact h1 ▸ hblock.2
        · exact hb b h1

theorem isTrace_guarded {segs : List Seg} {t : List BusEv}
    (h : IsTrace segs t) (hs : ∀ s ∈ segs, SegGuarded s) : GuardedList t := by
  induction segs generalizing t with
  | nil => cases h; trivial
  | cons s rest ih =>
      obtain ⟨t1, t2, h1, h2, rfl⟩ := h
      have g1 : GuardedList t1 := by
        cases s with
        | seq evs => exact h1 ▸ hs _ (List.mem_cons_self _ _)
        | par bs => exact interleaving_guarded h1 (hs _ (List.mem_cons_self _ _))
      exact guardedList_append g1 (ih h2 fun x hx => hs x (List.mem_cons_of_mem s hx))

theorem guardedList_get {t : List BusEv} (h : GuardedList t) :
    ∀ i : Nat, ∀ hi : i < t.length, isInvEv (t.get ⟨i, hi⟩) = true →
      ∃ j : Nat, ∃ hj : j < t.length, j < i ∧ isDelegEv (t.get ⟨j, hj⟩) = true := by
  induction t with
  | nil => intro i hi; cases hi
  | cons e rest ih =>
      intro i hi hinv
      unfold GuardedList at h
      by_cases hcond : isDelegEv e && !isInvEv e
      · cases i with
        | zero =>
            exfalso
            have : isInvEv e = false := by
              have := (Bool.and_eq_true _ _).mp hcond
              simpa using this.2
            simp only [List.get] at hinv
            rw [this] at hinv
            cases hinv
        | succ n =>
            refine ⟨0, Nat.succ_pos _, Nat.succ_pos _, ?_⟩
            have := (Bool.and_eq_true _ _).mp hcond
            simpa using this.1
      · rw [if_neg hcond] at h
        cases i with
        | zero =>
            exfalso
            simp only [List.get] at hinv
            rw [h.1] at hinv
            cases hinv
        | succ n =>
            have hn : n < rest.length := Nat.lt_of_succ_lt_succ hi
            obtain ⟨j, hj, hlt, hdel⟩ := ih h.2 n hn hinv
            exact ⟨j + 1, Nat.succ_lt_succ hj, Nat.succ_lt_succ hlt, hdel⟩

theorem guard_cons_of {e : BusEv} {rest : List BusEv}
    (hinv : isInvEv e = false) (h : GuardedList rest) : GuardedList (e :: rest) := by
  unfold GuardedList
  split
  · trivial
  · exact ⟨hinv, h⟩

theorem guard_cons_deleg {e : BusEv} (rest : List BusEv)
    (h : (isDelegEv e && !isInvEv e) = true) : GuardedList (e :: rest) := by
  unfold GuardedList
  rw [if_pos h]
  trivial

theorem isInvEv_mcpToolStart_detection (t : String) :
    isInvEv (BusEv.structured (mcpToolStartEv "detection" t)) = false := rfl

theorem isInvEv_mcpToolEnd_detection (t : String) (d : Nat) (s : Bool) :
    isInvEv (BusEv.structured (mcpToolEndEv "detection" t d s)) = false := rfl

theorem isInvEv_thinking_detection (t : String) :
    isInvEv (BusEv.structured (thinkingEv "detection" t)) = false := rfl

theorem isInvEv_agentActive_detection (v s : String) :
    isInvEv (BusEv.structured (agentActiveEv "detection" v s)) = false := rfl

theorem isInvEv_statusText (t : String) (f : Bool) (st : String) :
    isInvEv (BusEv.statusText t f st) = false := rfl

theorem isInvEv_initialTask : isInvEv BusEv.initialTask = false := rfl

theorem guarded_runToolCall (env : Detection.DetectionEnv) (tc : Detection.ToolCallReq) :
    GuardedList (Detection.runToolCall env tc).1 := by
  unfold Detection.runToolCall Detection.executeToolCall
  by_cases hname : (tc.name == "delegate_investigation") = true
  · rw [if_pos hname, if_pos hname]
    refine guard_cons_of (isInvEv_mcpToolStart_detection tc.name) ?_
    exact guard_cons_deleg _ (by decide)
  · rw [if_neg hname, if_neg hname]
    cases hct : env.callTool (Detection.toolMapping tc.name) tc.input with
    | error m =>
        simp only [hct]
        exact guard_cons_of (isInvEv_mcpToolStart_detection tc.name)
          (guard_cons_of (isInvEv_mcpToolEnd_detection tc.name _ false) trivial)
    | ok r =>
        cases r with
        | ok d =>
            simp only [hct]
            exact guard_cons_of (isInvEv_mcpToolStart_detection tc.name)
              (guard_cons_of (isInvEv_mcpToolEnd_detection tc.name _ true) trivial)
        | fail e =>
            simp only [hct]
            exact guard_cons_of (isInvEv_mcpToolStart_detection tc.name)
              (guard_cons_of (isInvEv_mcpToolEnd_detection tc.name _ true) trivial)

theorem segGuarded_par_blocks (env : Detection.DetectionEnv)
    (tcs : List Detection.ToolCallReq) :
    SegGuarded (Seg.par ((tcs.map (Detection.runToolCall env)).map Prod.fst)) := by
  intro b hb
  simp only [List.map_map, List.mem_map] at hb
  obtain ⟨tc, _, rfl⟩ := hb
  exact guarded_runToolCall env tc

theorem segGuarded_think (t : List BusEv)
    (h : t = [] ∨ ∃ s, t = [BusEv.structured (thinkingEv "detection" s)]) :
    SegGuarded (Seg.seq t) := by
  rcases h with rfl | ⟨s, rfl⟩
  · trivial
  · exact guard_cons_of (isInvEv_thinking_detection s) trivial

theorem loopD_guarded {σ : Type} (R : Detection.ClaudeReasoner σ) (env : Detection.DetectionEnv) :
    ∀ fuel s reply iters, ∀ sg ∈ (Detection.loopD R env fuel s reply iters).1, SegGuarded sg := by
  intro fuel
  induction fuel with
  | zero => intro s reply iters sg hsg; simp [Detection.loopD] at hsg
  | succ n ih =>
      intro s reply iters sg hsg
      unfold Detection.loopD at hsg
      cases hrc : reply.toolCalls? with
      | none => rw [hrc] at hsg; simp at hsg
      | some tcs =>
          rw [hrc] at hsg
          simp only at hsg
          cases hres : R.sendToolResults s ((tcs.map (Detection.runToolCall env)).map Prod.snd) with
          | error m =>
              rw [hres] at hsg
              simp only [List.mem_singleton] at hsg
              subst hsg
              exact segGuarded_par_blocks env tcs
          | ok pr =>
              rw [hres] at hsg
              rcases List.mem_cons.mp hsg with rfl | hsg2
              · exact segGuarded_par_blocks env tcs
              · rcases List.mem_cons.mp hsg2 with rfl | hsg3
                · apply segGuarded_think
                  by_cases hc : (pr.1.text != "" && pr.1.toolCalls?.isSome) = true
                  · rw [if_pos hc]; exact Or.inr ⟨pr.1.text, rfl⟩
                  · rw [if_neg hc]; exact Or.inl rfl
                · exact ih pr.2 pr.1 (iters + 1) sg hsg3

theorem detection_pre_noInv (b : Bool) :
    ∀ e ∈ ((if b then ([] : List BusEv) else [BusEv.initialTask]) ++
      [BusEv.structured (agentActiveEv "detection" "anthropic" "working"),
       BusEv.statusText "Analyzing for fraud patterns..." false "working"]),
      isInvEv e = false := by
  intro e he
  rcases List.mem_append.mp he with h1 | h1
  · cases b with
    | true => simp at h1
    | false =>
        simp at h1
        subst h1; rfl
  · rcases List.mem_cons.mp h1 with rfl | h2
    · rfl
    · rcases List.mem_cons.mp h2 with rfl | h3
      · rfl
      · cases h3

theorem execute_guarded {σ : Type} (R : Detection.ClaudeReasoner σ)
    (env : Detection.DetectionEnv) (b : Bool) (q : String) (s₀ : σ) :
    ∀ sg ∈ (Detection.execute R env b q s₀).segs, SegGuarded sg := by
  intro sg hsg
  unfold Detection.execute at hsg
  cases hsm : R.sendMessage s₀ q with
  | error m =>
      rw [hsm] at hsg
      simp only at hsg
      rcases List.mem_cons.mp hsg with rfl | h2
      · exact guardedList_of_noInv (detection_pre_noInv b)
      · rcases List.mem_cons.mp h2 with rfl | h3
        · exact guardedList_of_noInv (by
            intro e he
            unfold Detection.postEvs at he
            rcases List.mem_cons.mp he with rfl | h4
            · rfl
            · rcases List.mem_cons.mp h4 with rfl | h5
              · rfl
              · cases h5)
        · cases h3
  | ok pr =>
      rw [hsm] at hsg
      simp only at hsg
      rcases List.mem_cons.mp hsg with rfl | h2
      · refine guardedList_of_noInv ?_
        intro e he
        rcases List.mem_append.mp he with h1 | h1
        · exact detection_pre_noInv b e h1
        · by_cases hc : (pr.1.text != "" && pr.1.toolCalls?.isSome) = true
          · rw [if_pos hc] at h1
            rcases List.mem_singleton.mp h1 with rfl
            rfl
          · rw [if_neg hc] at h1; cases h1
      · rcases List.mem_append.mp h2 with h3 | h3
        · exact loopD_guarded R env MAX_ITERATIONS pr.2 pr.1 0 sg h3
        · rcases List.mem_singleton.mp h3 with rfl
          exact guardedList_of_noInv (by
            intro e he
            unfold Detection.postEvs at he
            rcases List.mem_cons.mp he with rfl | h4
            · rfl
            · rcases List.mem_cons.mp h4 with rfl | h5
              · rfl
              · cases h5)

theorem append_ne_empty_left (s t : String) (h : s ≠ "") : s ++ t ≠ "" := by
  intro hc
  apply h
  have hd : (s ++ t).data = ([] : List Char) := by rw [hc]
  rw [String.data_append] at hd
  have hs : s.data = [] := by
    cases hs2 : s.data with
    | nil => rfl
    | cons c cs => rw [hs2] at hd; simp at hd
  cases s
  simp only [String.data] at hs
  simp [hs]

theorem getLast?_cons_append_singleton {α : Type} (a x : α) (l : List α) :
    (a :: l ++ [x]).getLast? = some x := by
  show ((a :: l) ++ [x]).getLast? = some x
  exact List.getLast?_concat _

theorem loopD_iters_le {σ : Type} (R : Detection.ClaudeReasoner σ) (env : Detection.DetectionEnv) :
    ∀ fuel s reply iters, (Detection.loopD R env fuel s reply iters).2.2 ≤ iters + fuel := by
  intro fuel
  induction fuel with
  | zero => intro s reply iters; simp [Detection.loopD]
  | succ n ih =>
      intro s reply iters
      unfold Detection.loopD
      cases reply.toolCalls? with
      | none => simp
      | some tcs =>
          simp only
          cases R.sendToolResults s ((tcs.map (Detection.runToolCall env)).map Prod.snd) with
          | error m => exact Nat.add_le_add_left (Nat.succ_le_succ (Nat.zero_le n)) iters
          | ok pr =>
              simp only
              exact le_trans (ih pr.2 pr.1 (iters + 1)) (by omega)

theorem loopI_iters_le {σ : Type} (R : Investigation.GeminiReasoner σ)
    (env : Investigation.InvestigationEnv) :
    ∀ fuel s reply iters, (Investigation.loopI R env fuel s reply iters).2.2 ≤ iters + fuel := by
  intro fuel
  induction fuel with
  | zero => intro s reply iters; simp [Investigation.loopI]
  | succ n ih =>
      intro s reply iters
      unfold Investigation.loopI
      cases reply.toolCalls? with
      | none => simp
      | some tcs =>
          simp only
          by_cases hemp : tcs.isEmpty = true
      
      
          · rw [if_pos hemp]; exact Nat.le_add_right iters (n + 1)
          · rw [if_neg hemp]
            cases R.sendToolResults s ((tcs.map (Investigation.runToolCall env)).map Prod.snd) with
            | error m => exact Nat.add_le_add_left (Nat.succ_le_succ (Nat.zero_le n)) iters
            | ok pr =>
                simp only
                exact le_trans (ih pr.2 pr.1 (iters + 1)) (by omega)

theorem detection_execute_last {σ : Type} (R : Detection.ClaudeReasoner σ)
    (env : Detection.DetectionEnv) (b : Bool) (q : String) (s₀ : σ) :
    (Detection.execute R env b q s₀).segs.getLast? =
      some (Seg.seq (Detection.postEvs (Detection.execute R env b q s₀).responseText)) := by
  unfold Detection.execute
  cases hsm : R.sendMessage s₀ q with
  | error m => simp
  | ok pr =>
      simp only
      rw [getLast?_cons_append_singleton]

theorem investigation_execute_last {σ : Type} (R : Investigation.GeminiReasoner σ)
    (env : Investigation.InvestigationEnv) (b : Bool) (q : String) (s₀ : σ) :
    (Investigation.execute R env b q s₀).segs.getLast? =
      some (Seg.seq (Investigation.postEvs (Investigation.execute R env b q s₀).responseText)) := by
  unfold Investigation.execute
  cases hsm : R.sendMessage s₀ q with
  | error m => simp
  | ok pr =>
      simp only
      rw [getLast?_cons_append_singleton]

theorem detection_responseText_ne {σ : Type} (R : Detection.ClaudeReasoner σ)
    (env : Detection.DetectionEnv) (b : Bool) (q : String) (s₀ : σ) :
    (Detection.execute R env b q s₀).responseText ≠ "" := by
  unfold Detection.execute
  cases hsm : R.sendMessage s₀ q with
  | error m => simpa using append_ne_empty_left "Error: " m (by decide)
  | ok pr =>
      simp only
      cases hout : (Detection.loopD R env MAX_ITERATIONS pr.2 pr.1 0).2.1 with
      | error m => simpa using append_ne_empty_left "Error: " m (by decide)
      | ok r =>
          simp only
          by_cases hr : (r.text == "") = true
          · rw [if_pos hr]; decide
          · rw [if_neg hr]
            intro hc
            exact hr (by simp [hc])

theorem investigation_responseText_ne {σ : Type} (R : Investigation.GeminiReasoner σ)
    (env : Investigation.InvestigationEnv) (b : Bool) (q : String) (s₀ : σ) :
    (Investigation.execute R env b q s₀).responseText ≠ "" := by
  unfold Investigation.execute
  cases hsm : R.sendMessage s₀ q with
  | error m => simpa using append_ne_empty_left "Investigation error: " m (by decide)
  | ok pr =>
      simp only
      cases hout : (Investigation.loopI R env MAX_ITERATIONS pr.2 pr.1 0).2.1 with
      | error m => simpa using append_ne_empty_left "Investigation error: " m (by decide)
      | ok r =>
          simp only
          by_cases hmax : (Investigation.loopI R env MAX_ITERATIONS pr.2 pr.1 0).2.2 ≥ MAX_ITERATIONS
          · rw [if_pos hmax]
            exact append_ne_empty_left
              "Investigation reached maximum iterations (10). Partial results:\n\n" r.text
              (by decide)
          · rw [if_neg hmax]
            by_cases hr : (r.text == "") = true
            · rw [if_pos hr]; decide
            · rw [if_neg hr]
              intro hc
              exact hr (by simp [hc])

theorem detection_iterations_le {σ : Type} (R : Detection.ClaudeReasoner σ)
    (env : Detection.DetectionEnv) (b : Bool) (q : String) (s₀ : σ) :
    (Detection.execute R env b q s₀).iterations ≤ MAX_ITERATIONS := by
  unfold Detection.execute
  cases hsm : R.sendMessage s₀ q with
  | error m => simp
  | ok pr =>
      simp only
      simpa using loopD_iters_le R env MAX_ITERATIONS pr.2 pr.1 0

theorem investigation_iterations_le {σ : Type} (R : Investigation.GeminiReasoner σ)
    (env : Investigation.InvestigationEnv) (b : Bool) (q : String) (s₀ : σ) :
    (Investigation.execute R env b q s₀).iterations ≤ MAX_ITERATIONS := by
  unfold Investigation.execute
  cases hsm : R.sendMessage s₀ q with
  | error m => simp
  | ok pr =>
      simp only
      simpa using loopI_iters_le R env MAX_ITERATIONS pr.2 pr.1 0

theorem callInvestigationAgentWithEvents_events (stream : A2AClient.PeerStream) :
    (A2AClient.callInvestigationAgentWithEvents stream).1 =
      BusEv.structured (agentActiveEv "investigation" "google" "working") ::
      stream.events.foldr (fun ev acc => A2AClient.peerForward ev ++ acc) [] ++
      [BusEv.structured (agentActiveEv "investigation" "google" "completed")] := by
  unfold A2AClient.callInvestigationAgentWithEvents
  cases stream.failure? with
  | none => rfl
  | some m => rfl

theorem mem_foldr_append {α β : Type} (f : α → List β) (l : List α) (x : β) :
    x ∈ l.foldr (fun a acc => f a ++ acc) [] ↔ ∃ a ∈ l, x ∈ f a := by
  induction l with
  | nil => simp
  | cons a as ih => simp [ih]

theorem peerForward_shape (ev : A2AClient.PeerEv) (x : BusEv)
    (hx : x ∈ A2AClient.peerForward ev) :
    ∃ tp j f, ev = A2AClient.PeerEv.statusUpdate (some (some tp)) f ∧ tp.json? = some j ∧
      j.type?.isSome = true ∧
      x = BusEv.structured
        (if j.type? == some "mcp_tool" then { j with agent? := some "investigation" } else j) := by
  cases ev with
  | task state msg? => simp [A2AClient.peerForward] at hx
  | message txt? => simp [A2AClient.peerForward] at hx
  | statusUpdate msg? f =>
      cases msg? with
      | none => simp [A2AClient.peerForward] at hx
      | some tp? =>
          cases tp? with
          | none => simp [A2AClient.peerForward] at hx
          | some tp =>
              cases hj : tp.json? with
              | none => simp [A2AClient.peerForward, hj] at hx
              | some j =>
                  by_cases ht : j.type?.isSome = true
                  · refine ⟨tp, j, f, rfl, hj, ht, ?_⟩
                    simp [A2AClient.peerForward, hj, ht] at hx
                    simpa using hx
                  · simp [A2AClient.peerForward, hj, ht] at hx

theorem peerForward_of_typed (tp : A2AClient.TextPart) (j : JObj) (f : Bool)
    (hj : tp.json? = some j) (ht : j.type?.isSome = true) :
    A2AClient.peerForward (A2AClient.PeerEv.statusUpdate (some (some tp)) f) =
      [BusEv.structured
        (if j.type? == some "mcp_tool" then { j with agent? := some "investigation" } else j)] := by
  simp [A2AClient.peerForward, hj, ht]

theorem logToolCall_length_le (st : AuditLog.AuditState) (a : AuditLog.LogCallArgs)
    (h : st.auditLogs.length ≤ AuditLog.MAX_LOG_ENTRIES) :
    ((AuditLog.logToolCall st a).2).auditLogs.length ≤ AuditLog.MAX_LOG_ENTRIES := by
  unfold AuditLog.logToolCall
  simp only
  by_cases hc : (AuditLog.MAX_LOG_ENTRIES <
      (st.auditLogs.length + 1))
  · rw [if_pos (by simpa using hc)]
    rw [List.length_dropLast]
    simp only [List.length_cons]
    omega
  · rw [if_neg (by simpa using hc)]
    simp only [List.length_cons]
    omega

theorem runLog_length_le (calls : List AuditLog.LogCallArgs) :
    ∀ st : AuditLog.AuditState, st.auditLogs.length ≤ AuditLog.MAX_LOG_ENTRIES →
      (AuditLog.runLog st calls).auditLogs.length ≤ AuditLog.MAX_LOG_ENTRIES := by
  induction calls with
  | nil => intro st h; exact h
  | cons a as ih =>
      intro st h
      exact ih (AuditLog.logToolCall st a).2 (logToolCall_length_le st a h)

theorem logToolCall_head (st : AuditLog.AuditState) (a : AuditLog.LogCallArgs) :
    ((AuditLog.logToolCall st a).2).auditLogs.head? = some (AuditLog.logToolCall st a).1 := by
  unfold AuditLog.logToolCall
  simp only
  by_cases hc : (AuditLog.MAX_LOG_ENTRIES < (st.auditLogs.length + 1))
  · rw [if_pos (by simpa using hc)]
    cases hl : st.auditLogs with
    | nil =>
        rw [hl] at hc
        simp [AuditLog.MAX_LOG_ENTRIES] at hc
    | cons x xs => simp [List.dropLast]
  · rw [if_neg (by simpa using hc)]
    rfl

/-- C4: whenever the peer stream of a delegation ends — whether the peer
succeeded or raised an error — the delegation client emits
AgentActive{investigation, completed} as its last bus event, so the delegate
never remains in the working status after delegation finishes. -/
theorem c4_delegate_always_completed (stream : A2AClient.PeerStream) :
    (A2AClient.callInvestigationAgentWithEvents stream).1.getLast? =
      some (BusEv.structured (agentActiveEv "investigation" "google" "completed")) := by
  rw [callInvestigationAgentWithEvents_events]
  exact getLast?_cons_append_singleton _ _ _

/-- C7: feeding the decoder the five ordered Scenario-A frames yields exactly one
finalized message with text `3 anomalies found.` and exactly one tool-call
record in status `success` with duration 120. -/
theorem c7_scenario_a :
    (Chat.decodeFrames Chat.initialChatState
        [frameAgentWorking, frameToolStart, frameToolEnd, frameText, frameDone]).messages =
      ["3 anomalies found."] ∧
    (Chat.decodeFrames Chat.initialChatState
        [frameAgentWorking, frameToolStart, frameToolEnd, frameText, frameDone]).toolCalls =
      [{ name := "find_anomalies", agent := "detection", status := "success",
         duration? := some 120 }] := by
  exact ⟨rfl, rfl⟩

/-- C8 counterexample: a Done frame does not clear the tool-call list.  After a
tool-start frame, processing the empty Done frame leaves the running record in
place, contradicting the claim that the Done frame clears the transient per-turn
state. -/
theorem c8_counterexample :
    (Chat.handleFrame (Chat.decodeFrames Chat.initialChatState [frameToolStart])
        frameDone).toolCalls =
      [{ name := "find_anomalies", agent := "detection", status := "running",
         duration? := none }] ∧
    (Chat.handleFrame (Chat.decodeFrames Chat.initialChatState [frameToolStart])
        frameDone).toolCalls ≠ [] := by
  exact ⟨rfl, by decide⟩

/-- C8 amended: on a Done frame (a payload with `taskId` or an empty object that
matches no earlier rule) the decoder appends the accumulated text buffer as one
finalized message when the buffer is non-empty and changes nothing else: the
tool-call list, thinking list, delegations, agent statuses and the buffer itself
are left untouched (per-turn state is instead cleared by `resetState` at the
start of the next send). -/
theorem c8_amended_done_flushes_only (st : Chat.ChatState) (j : JObj)
    (h : Chat.reachesDone j = true) :
    Chat.handleFrame st j =
      { st with messages :=
          if st.current != "" then st.messages ++ [st.current] else st.messages } := by
  unfold Chat.reachesDone at h
  simp only [Bool.and_eq_true, Bool.not_eq_true'] at h
  obtain ⟨⟨⟨⟨⟨h1, h2⟩, h3⟩, h4⟩, h5⟩, h6⟩ := h
  unfold Chat.handleFrame
  rw [if_neg (fun hc => by rw [hc] at h1; exact Bool.noConfusion h1),
      if_neg (fun hc => by rw [hc] at h2; exact Bool.noConfusion h2),
      if_neg (fun hc => by rw [hc] at h3; exact Bool.noConfusion h3),
      if_neg (fun hc => by rw [hc] at h4; exact Bool.noConfusion h4),
      if_neg (fun hc => by rw [hc] at h5; exact Bool.noConfusion h5),
      if_pos h6]
  by_cases hc : (st.current != "") = true
  · rw [if_pos hc, if_pos hc]
  · rw [if_neg hc, if_neg hc]

/-- C8 witness: the amended statement applied at a concrete state holding a
running tool call, a thought, a delegation and a non-empty buffer, and at the
empty Done frame. -/
theorem c8_amended_witness :
    Chat.handleFrame c8Before frameDone = { c8Before with messages := ["partial answer"] } := by
  rw [c8_amended_done_flushes_only c8Before frameDone (by decide)]
  rfl

/-- C10: the audit log is capacity-bounded and newest-first: any call sequence
from the initial state leaves at most 1000 stored entries, the entry just logged
is always first, and `getRecentLogs limit` returns at most
`min (max 1 limit) 200` entries (hence at most 200) for every integer limit. -/
theorem c10_audit_log_capacity_bounded :
    (∀ calls : List AuditLog.LogCallArgs,
       (AuditLog.runLog AuditLog.initialState calls).auditLogs.length ≤
         AuditLog.MAX_LOG_ENTRIES) ∧
    (∀ (st : AuditLog.AuditState) (a : AuditLog.LogCallArgs),
       ((AuditLog.logToolCall st a).2).auditLogs.head? =
         some (AuditLog.logToolCall st a).1) ∧
    (∀ (st : AuditLog.AuditState) (limit : Int),
       (AuditLog.getRecentLogs st limit).length ≤ (min (max 1 limit) 200).toNat ∧
       (AuditLog.getRecentLogs st limit).length ≤ 200) := by
  refine ⟨fun calls => runLog_length_le calls AuditLog.initialState (by simp [AuditLog.initialState]),
    logToolCall_head, fun st limit => ⟨?_, ?_⟩⟩
  · exact List.length_take_le _ _
  · exact le_trans (List.length_take_le _ _) (by simp)

/-- C9 counterexample: the delegation client forwards any payload carrying a
`type` discriminator, not only the four kinds ToolCall, Delegation, AgentActive,
Thinking: a peer update of the unknown kind `bogus_kind` is forwarded into the
bus, so the claimed only-those-four filter does not hold. -/
theorem c9_counterexample :
    BusEv.structured bogusPayload ∈
      (A2AClient.callInvestigationAgentWithEvents bogusStream).1 ∧
    bogusPayload.type? = some "bogus_kind" ∧
    "bogus_kind" ∉ (["mcp_tool", "a2a_delegation", "agent_active", "thinking"] :
      List String) := by
  exact ⟨by decide, rfl, by decide⟩

/-- C9 amended: the delegation client forwards a peer payload into the bus
exactly when it is a JSON object carrying a `type` discriminator of any value;
for `mcp_tool` (ToolCall) payloads exactly the `agent` field is overwritten to
the delegate's identity, and every other forwarded payload is forwarded
unchanged; besides forwarded payloads only the two AgentActive wrapper events are
published. -/
theorem c9_amended_forwarding (stream : A2AClient.PeerStream) :
    (∀ x ∈ (A2AClient.callInvestigationAgentWithEvents stream).1,
       x = BusEv.structured (agentActiveEv "investigation" "google" "working") ∨
       x = BusEv.structured (agentActiveEv "investigation" "google" "completed") ∨
       ∃ tp j f, A2AClient.PeerEv.statusUpdate (some (some tp)) f ∈ stream.events ∧
         tp.json? = some j ∧ j.type?.isSome = true ∧
         x = BusEv.structured
           (if j.type? == some "mcp_tool" then { j with agent? := some "investigation" }
            else j)) ∧
    (∀ (tp : A2AClient.TextPart) (j : JObj) (f : Bool),
       A2AClient.PeerEv.statusUpdate (some (some tp)) f ∈ stream.events →
       tp.json? = some j → j.type?.isSome = true →
       BusEv.structured
           (if j.type? == some "mcp_tool" then { j with agent? := some "investigation" }
            else j) ∈
         (A2AClient.callInvestigationAgentWithEvents stream).1) := by
  constructor
  · intro x hx
    rw [callInvestigationAgentWithEvents_events] at hx
    rcases List.mem_cons.mp hx with rfl | hx2
    · exact Or.inl rfl
    · rcases List.mem_append.mp hx2 with h3 | h3
      · obtain ⟨ev, hev, hevx⟩ := (mem_foldr_append _ _ _).mp h3
        obtain ⟨tp, j, f, rfl, hj, ht, rfl⟩ := peerForward_shape ev x hevx
        exact Or.inr (Or.inr ⟨tp, j, f, hev, hj, ht, rfl⟩)
      · rcases List.mem_singleton.mp h3 with rfl
        exact Or.inr (Or.inl rfl)
  · intro tp j f hev hj ht
    rw [callInvestigationAgentWithEvents_events]
    apply List.mem_cons_of_mem
    apply List.mem_append_left
    refine (mem_foldr_append _ _ _).mpr ⟨_, hev, ?_⟩
    rw [peerForward_of_typed tp j f hj ht]
    exact List.mem_singleton.mpr rfl

/-- C9 witness: the forwarding direction applied to the concrete peer stream that
publishes a thinking payload. -/
theorem c9_amended_witness :
    BusEv.structured (thinkingEv "investigation" "reviewing claims") ∈
      (A2AClient.callInvestigationAgentWithEvents workingPeer).1 := by
  have h := (c9_amended_forwarding workingPeer).2 peerThinkTp
    (thinkingEv "investigation" "reviewing claims") false (by decide) rfl rfl
  exact h

/-- C5 counterexample: a Reasoner-level error does not abort the task into Failed
and is not surfaced as an Error event.  With a backend whose first call throws,
the run ends in a final status-update in state `completed` carrying the error
text, and no event of the run is an error frame or a failed status. -/
theorem c5_counterexample :
    (Detection.execute errReasoner okEnv true "find fraud" ()).responseText =
      "Error: backend unreachable" ∧
    (canonicalTrace (Detection.execute errReasoner okEnv true "find fraud" ()).segs).getLast? =
      some (BusEv.statusText "Error: backend unreachable" true "completed") ∧
    (canonicalTrace (Detection.execute errReasoner okEnv true "find fraud" ()).segs).all
      (fun e => !isErrorFrame e && !isFailedStatus e) = true := by
  exact ⟨rfl, rfl, by decide⟩

/-- C5 amended: a Reasoner-level error during execute is caught by the executor:
the error message becomes the final response text (`Error: ...` for detection,
`Investigation error: ...` for investigation) and the task still completes
through the normal path — AgentActive{completed} followed by a final
status-update in state `completed` — rather than entering Failed or emitting an
Error event. -/
theorem c5_amended_reasoner_error_completes {σ σ₂ : Type} (R : Detection.ClaudeReasoner σ)
    (RI : Investigation.GeminiReasoner σ₂) (env : Detection.DetectionEnv)
    (envI : Investigation.InvestigationEnv) (b bI : Bool) (q qI : String) (s₀ : σ) (sI₀ : σ₂)
    (m mI : String)
    (h : R.sendMessage s₀ q = Except.error m)
    (hI : RI.sendMessage sI₀ qI = Except.error mI) :
    (Detection.execute R env b q s₀).responseText = "Error: " ++ m ∧
    (Detection.execute R env b q s₀).segs.getLast? =
      some (Seg.seq (Detection.postEvs ("Error: " ++ m))) ∧
    (Investigation.execute RI envI bI qI sI₀).responseText = "Investigation error: " ++ mI ∧
    (Investigation.execute RI envI bI qI sI₀).segs.getLast? =
      some (Seg.seq (Investigation.postEvs ("Investigation error: " ++ mI))) := by
  unfold Detection.execute Investigation.execute
  rw [h, hI]
  exact ⟨rfl, rfl, rfl, rfl⟩

/-- C5 witness: the amended statement at the concrete erroring backends. -/
theorem c5_amended_witness :
    (Detection.execute errReasoner okEnv true "q" ()).responseText =
      "Error: " ++ "backend unreachable" ∧
    (Detection.execute errReasoner okEnv true "q" ()).segs.getLast? =
      some (Seg.seq (Detection.postEvs ("Error: " ++ "backend unreachable"))) ∧
    (Investigation.execute errGemini okInvEnv true "q2" ()).responseText =
      "Investigation error: " ++ "backend unreachable" ∧
    (Investigation.execute errGemini okInvEnv true "q2" ()).segs.getLast? =
      some (Seg.seq (Investigation.postEvs ("Investigation error: " ++ "backend unreachable"))) :=
  c5_amended_reasoner_error_completes errReasoner errGemini okEnv okInvEnv true true "q" "q2"
    () () "backend unreachable" "backend unreachable" rfl rfl

/-- C3: when the peer is unreachable or the peer stream fails, the delegation
client returns (it cannot throw: it is a total function) the string
`Error delegating to Investigation Agent: <message>` — both the streaming and the
non-streaming variant — the executor receives that string as the delegation
tool's `{investigation_report}` result, and the delegating task still completes
through the normal terminal path (final status-update in state `completed`, not
an error). -/
theorem c3_delegation_failure_nonfatal {σ : Type} (R : Detection.ClaudeReasoner σ)
    (env : Detection.DetectionEnv) (b : Bool) (q : String) (s₀ : σ) (m : String)
    (tc : Detection.ToolCallReq)
    (hfail : env.peer.failure? = some m)
    (hname : (tc.name == "delegate_investigation") = true) :
    (A2AClient.callInvestigationAgentWithEvents env.peer).2 =
      "Error delegating to Investigation Agent: " ++ m ∧
    A2AClient.callInvestigationAgent (Except.error m) =
      "Error delegating to Investigation Agent: " ++ m ∧
    (Detection.runToolCall env tc).2 =
      { toolUseId := tc.id, result := Detection.ToolOutcome.investigationReport
          ("Error delegating to Investigation Agent: " ++ m) } ∧
    (Detection.execute R env b q s₀).segs.getLast? =
      some (Seg.seq (Detection.postEvs (Detection.execute R env b q s₀).responseText)) := by
  have hres : (A2AClient.callInvestigationAgentWithEvents env.peer).2 =
      "Error delegating to Investigation Agent: " ++ m := by
    unfold A2AClient.callInvestigationAgentWithEvents
    rw [hfail]
  refine ⟨hres, rfl, ?_, detection_execute_last R env b q s₀⟩
  unfold Detection.runToolCall Detection.executeToolCall
  rw [if_pos hname, if_pos hname]
  simp only [hres]

/-- C3 witness: the statement at the concrete unreachable peer. -/
theorem c3_witness :
    (A2AClient.callInvestigationAgentWithEvents failedPeerEnv.peer).2 =
      "Error delegating to Investigation Agent: " ++ "fetch failed" ∧
    A2AClient.callInvestigationAgent (Except.error "fetch failed") =
      "Error delegating to Investigation Agent: " ++ "fetch failed" ∧
    (Detection.runToolCall failedPeerEnv delegateCall).2 =
      { toolUseId := delegateCall.id, result := Detection.ToolOutcome.investigationReport
          ("Error delegating to Investigation Agent: " ++ "fetch failed") } ∧
    (Detection.execute delegReasoner failedPeerEnv true "q" ()).segs.getLast? =
      some (Seg.seq (Detection.postEvs
        (Detection.execute delegReasoner failedPeerEnv true "q" ()).responseText)) :=
  c3_delegation_failure_nonfatal delegReasoner failedPeerEnv true "q" () "fetch failed"
    delegateCall rfl (by decide)

/-- C2: a tool call whose invocation throws is caught per call: the block it
publishes is exactly ToolCall{start} then ToolCall{end} with `success: false` and
the measured (numeric) duration, the `{error: message}` object is returned as
that tool's result in the batch fed back to the backend, and the run still
finishes through the normal terminal path (final status-update in state
`completed`), for both agents. -/
theorem c2_tool_throw_caught {σ σ₂ : Type} (R : Detection.ClaudeReasoner σ)
    (RI : Investigation.GeminiReasoner σ₂) (env : Detection.DetectionEnv)
    (envI : Investigation.InvestigationEnv) (b bI : Bool) (q qI : String) (s₀ : σ) (sI₀ : σ₂)
    (tc : Detection.ToolCallReq) (gtc : Investigation.GToolCall) (m mI : String)
    (hname : (tc.name == "delegate_investigation") = false)
    (hthrow : env.callTool (Detection.toolMapping tc.name) tc.input = Except.error m)
    (hthrowI : envI.callTool gtc.name gtc.args = Except.error mI) :
    Detection.runToolCall env tc =
      ([BusEv.structured (mcpToolStartEv "detection" tc.name),
        BusEv.structured (mcpToolEndEv "detection" tc.name (env.dur tc.name) false)],
       { toolUseId := tc.id, result := Detection.ToolOutcome.errObj m }) ∧
    Investigation.runToolCall envI gtc =
      ([BusEv.structured (mcpToolStartEv "investigation" gtc.name),
        BusEv.structured (mcpToolEndEv "investigation" gtc.name (envI.dur gtc.name) false)],
       { name := gtc.name, response := Detection.ToolOutcome.errObj mI }) ∧
    (Detection.execute R env b q s₀).segs.getLast? =
      some (Seg.seq (Detection.postEvs (Detection.execute R env b q s₀).responseText)) ∧
    (Investigation.execute RI envI bI qI sI₀).segs.getLast? =
      some (Seg.seq (Investigation.postEvs
        (Investigation.execute RI envI bI qI sI₀).responseText)) := by
  refine ⟨?_, ?_, detection_execute_last R env b q s₀,
    investigation_execute_last RI envI bI qI sI₀⟩
  · unfold Detection.runToolCall Detection.executeToolCall
    rw [if_neg (by simp [hname]), if_neg (by simp [hname]), hthrow]
    rfl
  · unfold Investigation.runToolCall Investigation.executeToolCall
    rw [hthrowI]

/-- C2 witness: the statement at a concrete tool layer whose transport throws. -/
theorem c2_witness :
    Detection.runToolCall throwEnv { id := "t1", name := "find_anomalies", input := "" } =
      ([BusEv.structured (mcpToolStartEv "detection" "find_anomalies"),
        BusEv.structured (mcpToolEndEv "detection" "find_anomalies"
          (throwEnv.dur "find_anomalies") false)],
       { toolUseId := "t1", result := Detection.ToolOutcome.errObj "ECONNREFUSED" }) ∧
    Investigation.runToolCall throwInvEnv { name := "explain_risk_score", args := "" } =
      ([BusEv.structured (mcpToolStartEv "investigation" "explain_risk_score"),
        BusEv.structured (mcpToolEndEv "investigation" "explain_risk_score"
          (throwInvEnv.dur "explain_risk_score") false)],
       { name := "explain_risk_score", response := Detection.ToolOutcome.errObj "ECONNREFUSED" }) ∧
    (Detection.execute oneToolThenDone throwEnv true "q" ()).segs.getLast? =
      some (Seg.seq (Detection.postEvs
        (Detection.execute oneToolThenDone throwEnv true "q" ()).responseText)) ∧
    (Investigation.execute oneToolThenDoneG throwInvEnv true "q2" ()).segs.getLast? =
      some (Seg.seq (Investigation.postEvs
        (Investigation.execute oneToolThenDoneG throwInvEnv true "q2" ()).responseText)) :=
  c2_tool_throw_caught oneToolThenDone oneToolThenDoneG throwEnv throwInvEnv true true "q" "q2"
    () () { id := "t1", name := "find_anomalies", input := "" }
    { name := "explain_risk_score", args := "" } "ECONNREFUSED" "ECONNREFUSED"
    (by decide) rfl rfl

/-- C1: for every backend whose every reply requests at least one tool call, each
executor performs at most `MAX_ITERATIONS = 10` reason/act rounds and still
terminates (both `execute` functions are total), emitting a non-empty final text
(the generic completion fallback stands in when the final reply carries no
text). -/
theorem c1_iteration_bound {σ σ₂ : Type} (R : Detection.ClaudeReasoner σ)
    (RI : Investigation.GeminiReasoner σ₂) (env : Detection.DetectionEnv)
    (envI : Investigation.InvestigationEnv) (b bI : Bool) (q qI : String) (s₀ : σ) (sI₀ : σ₂)
    (_hR : alwaysRequestsToolsD R) (_hRI : alwaysRequestsToolsI RI) :
    (Detection.execute R env b q s₀).iterations ≤ MAX_ITERATIONS ∧
    (Detection.execute R env b q s₀).responseText ≠ "" ∧
    (Investigation.execute RI envI bI qI sI₀).iterations ≤ MAX_ITERATIONS ∧
    (Investigation.execute RI envI bI qI sI₀).responseText ≠ "" :=
  ⟨detection_iterations_le R env b q s₀, detection_responseText_ne R env b q s₀,
   investigation_iterations_le RI envI bI qI sI₀,
   investigation_responseText_ne RI envI bI qI sI₀⟩

/-- C1 witness: the statement at concrete backends that always request one more
tool call. -/
theorem c1_witness :
    (Detection.execute alwaysToolReasoner okEnv true "q" ()).iterations ≤ MAX_ITERATIONS ∧
    (Detection.execute alwaysToolReasoner okEnv true "q" ()).responseText ≠ "" ∧
    (Investigation.execute alwaysToolGemini okInvEnv true "q2" ()).iterations ≤
      MAX_ITERATIONS ∧
    (Investigation.execute alwaysToolGemini okInvEnv true "q2" ()).responseText ≠ "" :=
  c1_iteration_bound alwaysToolReasoner alwaysToolGemini okEnv okInvEnv true true "q" "q2" () ()
    ⟨fun s q r s2 h => by
        injection h with h1
        injection h1 with hr hs
        subst hr
        exact ⟨_, rfl, by decide⟩,
      fun s rs r s2 h => by
        injection h with h1
        injection h1 with hr hs
        subst hr
        exact ⟨_, rfl, by decide⟩⟩
    ⟨fun s q r s2 h => by
        injection h with h1
        injection h1 with hr hs
        subst hr
        exact ⟨_, rfl, by decide⟩,
      fun s rs r s2 h => by
        injection h with h1
        injection h1 with hr hs
        subst hr
        exact ⟨_, rfl, by decide⟩⟩

/-- C6: in every possible event trace of a detection run (any interleaving of the
concurrent tool-call blocks), every event attributed to the investigation agent —
its AgentActive{working} event and every forwarded peer event — is preceded by a
Delegation{from: detection, to: investigation} event. -/
theorem c6_delegation_precedes {σ : Type} (R : Detection.ClaudeReasoner σ)
    (env : Detection.DetectionEnv) (b : Bool) (q : String) (s₀ : σ) (t : List BusEv)
    (h : IsTrace (Detection.execute R env b q s₀).segs t) :
    ∀ i : Nat, ∀ hi : i < t.length, isInvEv (t.get ⟨i, hi⟩) = true →
      ∃ j : Nat, ∃ hj : j < t.length, j < i ∧ isDelegEv (t.get ⟨j, hj⟩) = true :=
  guardedList_get (isTrace_guarded h (execute_guarded R env b q s₀))

/-- C6 witness: in the canonical trace of a run with one delegation, the
investigation AgentActive{working} event at position 4 is preceded by a
delegation event. -/
theorem c6_witness :
    ∃ j : Nat, ∃ hj : j < c6Trace.length, j < 4 ∧ isDelegEv (c6Trace.get ⟨j, hj⟩) = true :=
  c6_delegation_precedes delegReasoner delegEnv true "find fraud" () c6Trace
    (canonicalTrace_isTrace _) 4 (by decide) (by decide)
